import Mathlib

/-!
Verification of the token-query compiler and stream-subscription matcher of
fhir-works-on-aws-search-es.

The embedding follows the source files:
* src/QueryBuilder/typeQueries/tokenQuery.ts
* src/StreamSubscriptionMatcher/StreamSubscriptionMatcher.ts
-/

/-- Mirrors CompiledSearchParam as used by tokenQuery.ts (only the `path`
field is read by the function). -/
structure CompiledSearchParam where
  path : String
deriving DecidableEq, Repr

/-- Mirrors TokenSearchValue from FhirQueryParser:
`{system?: string, code?: string, explicitNoSystemProperty?: boolean}`.
Optional fields are `Option`s; `explicitNoSystemProperty` keeps the three
JavaScript possibilities undefined / false / true. -/
structure TokenSearchValue where
  system : Option String
  code : Option String
  explicitNoSystemProperty : Option Bool
deriving DecidableEq, Repr

/-- The error thrown by tokenQuery.ts on an unsupported modifier. -/
inductive SearchError where
  | invalidSearchParameterError (msg : String)
deriving DecidableEq, Repr

/-- One clause pushed onto the `queries` array of tokenQuery.ts.
* `multiMatch fields query lenient` is `{multi_match: {fields, query, lenient}}`;
* `boolMustTerm field v` is `{bool: {must: {term: {field: v}}}}` (the shape
  used by the intent/order override branches);
* `mustNotExists field` is `{bool: {must_not: {exists: {field}}}}`. -/
inductive Clause where
  | multiMatch (fields : List String) (query : String) (lenient : Bool)
  | boolMustTerm (field : String) (value : String)
  | mustNotExists (field : String)
deriving DecidableEq, Repr

/-- The value returned by tokenQuery.ts: either a single clause returned
unwrapped (`queries[0]`), or `{bool: {must: queries}}` over the whole clause
list. -/
inductive Query where
  | single (c : Clause)
  | boolMust (cs : List Clause)
deriving DecidableEq, Repr

/-- tokenQuery.ts line 14: fields that do not get the `.keyword` suffix. -/
def FIELDS_WITHOUT_KEYWORD : List String := ["id"]

/-- tokenQuery.ts line 15: the set of supported token modifiers (empty). -/
def SUPPORTED_MODIFIERS : List String := []

/-- tokenQuery.ts line 39:
`useKeywordSubFields && !FIELDS_WITHOUT_KEYWORD.includes(compiled.path)`. -/
def useKeywordSuffixFlag (compiled : CompiledSearchParam)
    (useKeywordSubFields : Bool) : Bool :=
  useKeywordSubFields && !(FIELDS_WITHOUT_KEYWORD.contains compiled.path)

/-- tokenQuery.ts line 40: `useKeywordSuffix ? '.keyword' : ''`. -/
def keywordSuffixOf (compiled : CompiledSearchParam)
    (useKeywordSubFields : Bool) : String :=
  if useKeywordSuffixFlag compiled useKeywordSubFields then ".keyword" else ""

/-- tokenQuery.ts lines 47-61: the clauses pushed when `system` is defined:
one multi_match over `path.system` and `path.coding.system` (suffixed), with
`lenient: true`. -/
def tokenSystemClauses (compiled : CompiledSearchParam) (value : TokenSearchValue)
    (useKeywordSubFields : Bool) : List Clause :=
  let keywordSuffix := keywordSuffixOf compiled useKeywordSubFields
  match value.system with
  | none => []
  | some system =>
      [Clause.multiMatch
        [compiled.path ++ ".system" ++ keywordSuffix,
         compiled.path ++ ".coding.system" ++ keywordSuffix]
        system true]

/-- tokenQuery.ts lines 63-105: the clauses pushed when `code` is defined.
The field list holds four candidates (suffixed), plus the bare path when the
keyword suffix is in use; the `intent`/`order` and `intent`/`original-order`
branches push a term-equality clause wrapped in `bool.must` instead of the
multi_match. -/
def tokenCodeClauses (compiled : CompiledSearchParam) (value : TokenSearchValue)
    (useKeywordSubFields : Bool) : List Clause :=
  let useKeywordSuffix := useKeywordSuffixFlag compiled useKeywordSubFields
  let keywordSuffix := keywordSuffixOf compiled useKeywordSubFields
  match value.code with
  | none => []
  | some code =>
      let fields :=
        [compiled.path ++ ".code" ++ keywordSuffix,
         compiled.path ++ ".coding.code" ++ keywordSuffix,
         compiled.path ++ ".value" ++ keywordSuffix,
         compiled.path ++ keywordSuffix] ++
        (if useKeywordSuffix then [compiled.path] else [])
      if compiled.path = "intent" ∧ code = "order" then
        [Clause.boolMustTerm "intent" "order"]
      else if compiled.path = "intent" ∧ code = "original-order" then
        [Clause.boolMustTerm "intent" "original-order"]
      else
        [Clause.multiMatch fields code true]

/-- tokenQuery.ts lines 107-117: the clause pushed when
`explicitNoSystemProperty` is truthy (i.e. `true`; `false` and undefined are
both falsy in JavaScript). -/
def tokenNoSystemClauses (compiled : CompiledSearchParam)
    (value : TokenSearchValue) : List Clause :=
  match value.explicitNoSystemProperty with
  | some true => [Clause.mustNotExists (compiled.path ++ ".system")]
  | _ => []

/-- The full `queries` array built by tokenQuery.ts lines 38-117, in push
order: system clause, then code clause, then explicit-no-system clause. -/
def tokenQueryClauses (compiled : CompiledSearchParam) (value : TokenSearchValue)
    (useKeywordSubFields : Bool) : List Clause :=
  tokenSystemClauses compiled value useKeywordSubFields ++
  tokenCodeClauses compiled value useKeywordSubFields ++
  tokenNoSystemClauses compiled value

/-- JavaScript truthiness of the optional `modifier` string: undefined and
the empty string are falsy. -/
def modifierTruthy : Option String → Bool
  | none => false
  | some s => s ≠ ""

/-- tokenQuery.ts lines 18-134.  Throws InvalidSearchParameterError when a
truthy modifier is not in SUPPORTED_MODIFIERS; otherwise builds the clause
list and returns `queries[0]` unwrapped when the list has exactly one
element, and `{bool: {must: queries}}` otherwise. -/
def tokenQuery (compiled : CompiledSearchParam) (value : TokenSearchValue)
    (useKeywordSubFields : Bool) (modifier : Option String) :
    Except SearchError Query :=
  if modifierTruthy modifier &&
      !(SUPPORTED_MODIFIERS.contains (modifier.getD "")) then
    Except.error (SearchError.invalidSearchParameterError
      ("Unsupported token search modifier: " ++ modifier.getD ""))
  else
    match tokenQueryClauses compiled value useKeywordSubFields with
    | [q] => Except.ok (Query.single q)
    | qs => Except.ok (Query.boolMust qs)

/-- A FHIR resource as seen by the matcher: its type, id, the tenant
discriminator `_tenantId` (optional, like the subscription's), and a flat
view of its (field path, value) pairs. -/
structure Resource where
  resourceType : String
  id : String
  tenantId : Option String
  fields : List (String × String)
deriving DecidableEq, Repr

/-- A resource holds value `v` at field path `f`. -/
def Resource.hasFieldValue (r : Resource) (f v : String) : Bool :=
  decide ((f, v) ∈ r.fields)

/-- A resource has some value at field path `f`. -/
def Resource.hasField (r : Resource) (f : String) : Bool :=
  r.fields.any (fun p => p.1 == f)

/-- Modelled from the spec: the meaning of one backend query-DSL clause
(spec sections 4.2(a) and 6) on a resource.  A multi_match is satisfied when
any of its candidate fields holds the query value, a term clause when the
field holds exactly the value, and a must_not/exists clause when the field
is absent. -/
def Clause.esMatches (c : Clause) (r : Resource) : Bool :=
  match c with
  | .multiMatch fields q _ => fields.any (fun f => r.hasFieldValue f q)
  | .boolMustTerm f v => r.hasFieldValue f v
  | .mustNotExists f => !(r.hasField f)

/-- Modelled from the spec: the backend rendering of the whole compiled
expression; a `bool.must` composition is the conjunction of its clauses. -/
def Query.esMatches : Query → Resource → Bool
  | .single c, r => c.esMatches r
  | .boolMust cs, r => cs.all (fun c => c.esMatches r)

/-- Modelled from the spec: the in-memory rendering of one clause, the
`evaluate(resource) -> bool` function of spec section 4.2(b) (the
InMemoryMatcher source is not under src/). -/
def Clause.evaluate (c : Clause) (r : Resource) : Bool :=
  match c with
  | .multiMatch fields q _ => decide (∃ f ∈ fields, (f, q) ∈ r.fields)
  | .boolMustTerm f v => decide ((f, v) ∈ r.fields)
  | .mustNotExists f => decide (¬ ∃ p ∈ r.fields, p.1 = f)

/-- Modelled from the spec: in-memory evaluation of the whole compiled
expression. -/
def Query.evaluate : Query → Resource → Bool
  | .single c, r => c.evaluate r
  | .boolMust cs, r => cs.foldr (fun c b => c.evaluate r && b) true

/-- Modelled from the spec: `matchParsedFhirQueryParams` of the
InMemoryMatcher (not under src/) applies the in-memory rendering of the
parsed criteria to the resource. -/
def matchParsedFhirQueryParams (q : Query) (r : Resource) : Bool :=
  q.evaluate r

/-- Mirrors the `Subscription` entity (spec section 3; the parsing code of
subscriptions.ts is not under src/): id, tenant, compiled criteria and
channel configuration. -/
structure Subscription where
  id : String
  tenantId : Option String
  parsedCriteria : Query
  channelType : String
  channelEndpoint : String
deriving DecidableEq, Repr

/-- StreamSubscriptionMatcher.ts lines 32-38: a subscription matches a
resource when the tenant ids agree (both possibly undefined) and the parsed
criteria evaluate to true on the resource. -/
def matchSubscription (subscription : Subscription) (resource : Resource) : Bool :=
  subscription.tenantId == resource.tenantId &&
  matchParsedFhirQueryParams subscription.parsedCriteria resource

/-- Modelled from the spec: the outbound notification of spec sections 3
and 6 (`buildNotification` of subscriptions.ts is not under src/). -/
structure SubscriptionNotification where
  subscriptionId : String
  matchedResource : Resource
  channelType : String
  channelEndpoint : String
deriving DecidableEq, Repr

/-- Modelled from the spec: `buildNotification` (subscriptions.ts, not under
src/) copies the subscription id, channel configuration and the matched
resource into a notification. -/
def buildNotification (subscription : Subscription) (resource : Resource) :
    SubscriptionNotification :=
  ⟨subscription.id, resource, subscription.channelType, subscription.channelEndpoint⟩

/-- StreamSubscriptionMatcher.ts lines 106-110: the match cycle flat-maps
every active subscription over the eligible resources that satisfy
`matchSubscription`, building one notification per satisfying pair. -/
def subscriptionNotifications (activeSubscriptions : List Subscription)
    (eligibleResources : List Resource) : List SubscriptionNotification :=
  activeSubscriptions.flatMap (fun subscription =>
    (eligibleResources.filter (matchSubscription subscription)).map
      (buildNotification subscription))

/-- The (subscription, resource) pairs whose notifications the match cycle
produces, in production order. -/
def matchingPairs (activeSubscriptions : List Subscription)
    (eligibleResources : List Resource) : List (Subscription × Resource) :=
  activeSubscriptions.flatMap (fun subscription =>
    (eligibleResources.filter (matchSubscription subscription)).map
      (fun resource => (subscription, resource)))

/-- StreamSubscriptionMatcher.ts line 27. -/
def SNS_MAX_BATCH_SIZE : Nat := 10

/-- lodash `chunk`: splits a list into consecutive runs of `n` elements,
the last run holding whatever remains. -/
def chunkList (n : Nat) : List α → List (List α)
  | [] => []
  | x :: xs => (x :: xs.take (n - 1)) :: chunkList n (xs.drop (n - 1))
termination_by l => l.length
decreasing_by simp [List.length_drop]; omega

/-- StreamSubscriptionMatcher.ts lines 122-136: the notification sequence is
chunked into batches of at most SNS_MAX_BATCH_SIZE; each batch is turned
into exactly one PublishBatchCommand. -/
def dispatchBatches (notifications : List SubscriptionNotification) :
    List (List SubscriptionNotification) :=
  chunkList SNS_MAX_BATCH_SIZE notifications

/-- Number of PublishBatchCommand sends issued: one per batch. -/
def snsPublishCalls (notifications : List SubscriptionNotification) : Nat :=
  (dispatchBatches notifications).length

/-- The two renderings of one clause agree on every resource. -/
theorem clauseEvaluate_eq_esMatches (c : Clause) (r : Resource) :
    c.evaluate r = c.esMatches r := by
  cases c with
  | multiMatch fields q l =>
      simp only [Clause.evaluate, Clause.esMatches, Resource.hasFieldValue]
      rw [Bool.eq_iff_iff]
      simp [List.any_eq_true]
  | boolMustTerm f v => rfl
  | mustNotExists f =>
      simp only [Clause.evaluate, Clause.esMatches, Resource.hasField]
      rw [Bool.eq_iff_iff]
      simp only [decide_eq_true_eq, Bool.not_eq_true', List.any_eq_false,
        beq_iff_eq]
      constructor
      · intro h p hp hpf
        exact h ⟨p, hp, hpf⟩
      · intro h hex
        rcases hex with ⟨p, hp, hpf⟩
        exact h p hp hpf

/-- The two renderings of a compiled expression agree on every resource. -/
theorem queryEvaluate_eq_esMatches (q : Query) (r : Resource) :
    q.evaluate r = q.esMatches r := by
  cases q with
  | single c => exact clauseEvaluate_eq_esMatches c r
  | boolMust cs =>
      simp only [Query.evaluate, Query.esMatches]
      induction cs with
      | nil => rfl
      | cons c cs ih =>
          simp only [List.foldr_cons, List.all_cons]
          rw [clauseEvaluate_eq_esMatches c r, ih]

/-- C6: for every CompiledSearchParam, TokenSearchValue and
useKeywordSubFields flag, calling tokenQuery with any non-empty modifier
string raises InvalidSearchParameterError (SUPPORTED_MODIFIERS being empty),
and no query is produced. -/
theorem tokenQuery_nonempty_modifier_error (compiled : CompiledSearchParam)
    (value : TokenSearchValue) (useKeywordSubFields : Bool) (m : String)
    (hm : m ≠ "") :
    tokenQuery compiled value useKeywordSubFields (some m) =
      Except.error (SearchError.invalidSearchParameterError
        ("Unsupported token search modifier: " ++ m)) := by
  simp [tokenQuery, modifierTruthy, SUPPORTED_MODIFIERS, hm]

/-- Witness for C6 at the concrete modifier "exact". -/
theorem tokenQuery_nonempty_modifier_error_witness :
    tokenQuery ⟨"code"⟩ ⟨none, some "a", none⟩ false (some "exact") =
      Except.error (SearchError.invalidSearchParameterError
        "Unsupported token search modifier: exact") :=
  tokenQuery_nonempty_modifier_error ⟨"code"⟩ ⟨none, some "a", none⟩ false
    "exact" (by decide)

/-- C5: for every TokenSearchValue in which only `system` is set, tokenQuery
returns a single multi-field match clause, unwrapped, over exactly the two
field variants `path.system` and `path.coding.system` (suffixed when
applicable), with lenient match mode. -/
theorem tokenQuery_system_only (compiled : CompiledSearchParam)
    (value : TokenSearchValue) (useKeywordSubFields : Bool) (s : String)
    (hs : value.system = some s) (hc : value.code = none)
    (he : value.explicitNoSystemProperty = none) :
    tokenQuery compiled value useKeywordSubFields none =
      Except.ok (Query.single (Clause.multiMatch
        [compiled.path ++ ".system" ++ keywordSuffixOf compiled useKeywordSubFields,
         compiled.path ++ ".coding.system" ++ keywordSuffixOf compiled useKeywordSubFields]
        s true)) := by
  simp [tokenQuery, modifierTruthy, tokenQueryClauses, tokenSystemClauses,
    tokenCodeClauses, tokenNoSystemClauses, hs, hc, he]

/-- Witness for C5 at a concrete system-only value. -/
theorem tokenQuery_system_only_witness :
    tokenQuery ⟨"code"⟩ ⟨some "http://a", none, none⟩ true none =
      Except.ok (Query.single (Clause.multiMatch
        ["code.system.keyword", "code.coding.system.keyword"] "http://a" true)) := by
  have h := tokenQuery_system_only ⟨"code"⟩ ⟨some "http://a", none, none⟩ true
    "http://a" rfl rfl rfl
  simpa [keywordSuffixOf, useKeywordSuffixFlag, FIELDS_WITHOUT_KEYWORD] using h

/-- C7: for every TokenSearchValue in which explicitNoSystemProperty is true
and system and code are undefined, tokenQuery returns a single
negated-existence clause on `path.system`, unwrapped. -/
theorem tokenQuery_explicitNoSystem_only (compiled : CompiledSearchParam)
    (value : TokenSearchValue) (useKeywordSubFields : Bool)
    (hs : value.system = none) (hc : value.code = none)
    (he : value.explicitNoSystemProperty = some true) :
    tokenQuery compiled value useKeywordSubFields none =
      Except.ok (Query.single (Clause.mustNotExists (compiled.path ++ ".system"))) := by
  simp [tokenQuery, modifierTruthy, tokenQueryClauses, tokenSystemClauses,
    tokenCodeClauses, tokenNoSystemClauses, hs, hc, he]

/-- Witness for C7 at a concrete value. -/
theorem tokenQuery_explicitNoSystem_only_witness :
    tokenQuery ⟨"identifier"⟩ ⟨none, none, some true⟩ false none =
      Except.ok (Query.single (Clause.mustNotExists "identifier.system")) := by
  have h := tokenQuery_explicitNoSystem_only ⟨"identifier"⟩
    ⟨none, none, some true⟩ false rfl rfl rfl
  simpa using h

/-- C10: for every TokenSearchValue with system and code undefined and
explicitNoSystemProperty absent or explicitly false (the flag is tested for
truthiness), tokenQuery raises no error and returns the empty conjunction
`{bool: {must: []}}`, which matches every resource under both renderings. -/
theorem tokenQuery_empty_value (compiled : CompiledSearchParam)
    (value : TokenSearchValue) (useKeywordSubFields : Bool)
    (hs : value.system = none) (hc : value.code = none)
    (he : value.explicitNoSystemProperty = none ∨
          value.explicitNoSystemProperty = some false) :
    tokenQuery compiled value useKeywordSubFields none =
      Except.ok (Query.boolMust []) ∧
    (∀ r : Resource, Query.esMatches (Query.boolMust []) r = true ∧
      Query.evaluate (Query.boolMust []) r = true) := by
  constructor
  · rcases he with he | he <;>
      simp [tokenQuery, modifierTruthy, tokenQueryClauses, tokenSystemClauses,
        tokenCodeClauses, tokenNoSystemClauses, hs, hc, he]
  · intro r
    exact ⟨rfl, rfl⟩

/-- Witness for C10 at a concrete all-empty value. -/
theorem tokenQuery_empty_value_witness :
    tokenQuery ⟨"code"⟩ ⟨none, none, some false⟩ true none =
      Except.ok (Query.boolMust []) ∧
    (∀ r : Resource, Query.esMatches (Query.boolMust []) r = true ∧
      Query.evaluate (Query.boolMust []) r = true) :=
  tokenQuery_empty_value ⟨"code"⟩ ⟨none, none, some false⟩ true rfl rfl
    (Or.inr rfl)

/-- C1: for every CompiledSearchParam with path `intent` and every
TokenSearchValue whose code is `order` (likewise `original-order`), the code
component of tokenQuery is the single term-equality clause on
`{intent: 'order'}` (resp. `{intent: 'original-order'}`) — emitted wrapped in
its own `bool.must`, the JSON `{bool: {must: {term: ...}}}` denoted by
`Clause.boolMustTerm` — and never a multi-field match clause. -/
theorem tokenQuery_intent_order_override (compiled : CompiledSearchParam)
    (v₁ v₂ : TokenSearchValue) (useKeywordSubFields : Bool)
    (hp : compiled.path = "intent")
    (h1 : v₁.code = some "order") (h2 : v₂.code = some "original-order") :
    tokenCodeClauses compiled v₁ useKeywordSubFields =
      [Clause.boolMustTerm "intent" "order"] ∧
    tokenCodeClauses compiled v₂ useKeywordSubFields =
      [Clause.boolMustTerm "intent" "original-order"] ∧
    ∀ fields q l, Clause.multiMatch fields q l ∉
        tokenCodeClauses compiled v₁ useKeywordSubFields ∧
      Clause.multiMatch fields q l ∉
        tokenCodeClauses compiled v₂ useKeywordSubFields := by
  have e1 : tokenCodeClauses compiled v₁ useKeywordSubFields =
      [Clause.boolMustTerm "intent" "order"] := by
    simp [tokenCodeClauses, h1, hp]
  have e2 : tokenCodeClauses compiled v₂ useKeywordSubFields =
      [Clause.boolMustTerm "intent" "original-order"] := by
    simp [tokenCodeClauses, h2, hp]
  refine ⟨e1, e2, fun fields q l => ?_⟩
  rw [e1, e2]
  constructor <;> simp

/-- Witness for C1 at concrete order / original-order values. -/
theorem tokenQuery_intent_order_override_witness :
    tokenCodeClauses ⟨"intent"⟩ ⟨none, some "order", none⟩ true =
      [Clause.boolMustTerm "intent" "order"] ∧
    tokenCodeClauses ⟨"intent"⟩ ⟨none, some "original-order", none⟩ true =
      [Clause.boolMustTerm "intent" "original-order"] :=
  ⟨(tokenQuery_intent_order_override ⟨"intent"⟩ ⟨none, some "order", none⟩
      ⟨none, some "original-order", none⟩ true rfl rfl rfl).1,
   (tokenQuery_intent_order_override ⟨"intent"⟩ ⟨none, some "order", none⟩
      ⟨none, some "original-order", none⟩ true rfl rfl rfl).2.1⟩

/-- C8: for every input on which tokenQuery produces a query, a singleton
clause list is returned unwrapped and a longer list is wrapped in one
conjunctive `bool.must`. -/
theorem tokenQuery_combine (compiled : CompiledSearchParam)
    (value : TokenSearchValue) (useKeywordSubFields : Bool)
    (modifier : Option String) (q : Query)
    (h : tokenQuery compiled value useKeywordSubFields modifier = Except.ok q) :
    (∀ c, tokenQueryClauses compiled value useKeywordSubFields = [c] →
      q = Query.single c) ∧
    (1 < (tokenQueryClauses compiled value useKeywordSubFields).length →
      q = Query.boolMust (tokenQueryClauses compiled value useKeywordSubFields)) := by
  cases hmt : modifierTruthy modifier with
  | true => simp [tokenQuery, hmt, SUPPORTED_MODIFIERS] at h
  | false =>
    simp only [tokenQuery, hmt, Bool.false_and, Bool.false_eq_true,
      if_false] at h
    constructor
    · intro c hc
      rw [hc] at h
      simp at h
      exact h.symm
    · intro hlen
      rcases hcl : tokenQueryClauses compiled value useKeywordSubFields with
        _ | ⟨a, _ | ⟨b, t⟩⟩
      · rw [hcl] at hlen; simp at hlen
      · rw [hcl] at hlen; simp at hlen
      · rw [hcl] at h
        simp at h
        exact h.symm

/-- Witness for C8 at a concrete two-clause input (system and code both
set). -/
theorem tokenQuery_combine_witness :
    (∀ c, tokenQueryClauses ⟨"code"⟩ ⟨some "s", some "c", none⟩ false = [c] →
      Query.boolMust (tokenQueryClauses ⟨"code"⟩ ⟨some "s", some "c", none⟩ false) =
        Query.single c) ∧
    (1 < (tokenQueryClauses ⟨"code"⟩ ⟨some "s", some "c", none⟩ false).length →
      Query.boolMust (tokenQueryClauses ⟨"code"⟩ ⟨some "s", some "c", none⟩ false) =
        Query.boolMust (tokenQueryClauses ⟨"code"⟩ ⟨some "s", some "c", none⟩ false)) :=
  tokenQuery_combine ⟨"code"⟩ ⟨some "s", some "c", none⟩ false none
    (Query.boolMust (tokenQueryClauses ⟨"code"⟩ ⟨some "s", some "c", none⟩ false))
    (by rfl)

/-- C2 fails as stated: with path `id` (a member of FIELDS_WITHOUT_KEYWORD)
and useKeywordSubFields true, the emitted multi_match has exactly the four
un-suffixed candidates and the bare path is NOT added as a fifth candidate,
because the source gates the fifth candidate on `useKeywordSuffix`, not on
`useKeywordSubFields`. -/
theorem tokenQuery_fifth_candidate_counterexample :
    tokenQuery ⟨"id"⟩ ⟨none, some "male", none⟩ true none =
      Except.ok (Query.single (Clause.multiMatch
        ["id.code", "id.coding.code", "id.value", "id"] "male" true)) := by
  rfl

/-- C2 (amended): for every TokenSearchValue with code defined and (path,
code) not an intent/order override pair, tokenQuery emits a multi-field
match over the four suffixed candidates, and the un-suffixed bare path is
included as a fifth candidate exactly when the keyword suffix is in effect,
i.e. when useKeywordSubFields is true AND the path is not in
FIELDS_WITHOUT_KEYWORD. -/
theorem tokenQuery_code_fields (compiled : CompiledSearchParam)
    (value : TokenSearchValue) (useKeywordSubFields : Bool) (code : String)
    (hc : value.code = some code)
    (hover : ¬(compiled.path = "intent" ∧
      (code = "order" ∨ code = "original-order"))) :
    tokenCodeClauses compiled value useKeywordSubFields =
      [Clause.multiMatch
        ([compiled.path ++ ".code" ++ keywordSuffixOf compiled useKeywordSubFields,
          compiled.path ++ ".coding.code" ++ keywordSuffixOf compiled useKeywordSubFields,
          compiled.path ++ ".value" ++ keywordSuffixOf compiled useKeywordSubFields,
          compiled.path ++ keywordSuffixOf compiled useKeywordSubFields] ++
         (if useKeywordSuffixFlag compiled useKeywordSubFields then
            [compiled.path] else []))
        code true] := by
  have h1 : ¬(compiled.path = "intent" ∧ code = "order") := by
    intro hcon; exact hover ⟨hcon.1, Or.inl hcon.2⟩
  have h2 : ¬(compiled.path = "intent" ∧ code = "original-order") := by
    intro hcon; exact hover ⟨hcon.1, Or.inr hcon.2⟩
  simp [tokenCodeClauses, hc, h1, h2]

/-- Witness for the amended C2 at the concrete counterexample input. -/
theorem tokenQuery_code_fields_witness :
    tokenCodeClauses ⟨"id"⟩ ⟨none, some "male", none⟩ true =
      [Clause.multiMatch
        (["id" ++ ".code" ++ keywordSuffixOf ⟨"id"⟩ true,
          "id" ++ ".coding.code" ++ keywordSuffixOf ⟨"id"⟩ true,
          "id" ++ ".value" ++ keywordSuffixOf ⟨"id"⟩ true,
          "id" ++ keywordSuffixOf ⟨"id"⟩ true] ++
         (if useKeywordSuffixFlag ⟨"id"⟩ true then ["id"] else []))
        "male" true] :=
  tokenQuery_code_fields ⟨"id"⟩ ⟨none, some "male", none⟩ true "male" rfl
    (by decide)

/-- C3: the compiled expression returned by tokenQuery supports the backend
query-DSL rendering and the in-memory rendering without recompilation, and
for every resource the two renderings agree on whether the resource
matches. -/
theorem tokenQuery_renderings_agree (compiled : CompiledSearchParam)
    (value : TokenSearchValue) (useKeywordSubFields : Bool)
    (modifier : Option String) (q : Query)
    (_h : tokenQuery compiled value useKeywordSubFields modifier = Except.ok q) :
    ∀ r : Resource, q.esMatches r = q.evaluate r := by
  intro r
  exact (queryEvaluate_eq_esMatches q r).symm

/-- Witness for C3 at a concrete compiled query and resource. -/
theorem tokenQuery_renderings_agree_witness :
    (Query.boolMust (tokenQueryClauses ⟨"code"⟩ ⟨some "s", some "c", none⟩ false)).esMatches
        ⟨"Patient", "p1", none, [("code.coding.code", "c")]⟩ =
      (Query.boolMust (tokenQueryClauses ⟨"code"⟩ ⟨some "s", some "c", none⟩ false)).evaluate
        ⟨"Patient", "p1", none, [("code.coding.code", "c")]⟩ :=
  tokenQuery_renderings_agree ⟨"code"⟩ ⟨some "s", some "c", none⟩ false none
    (Query.boolMust (tokenQueryClauses ⟨"code"⟩ ⟨some "s", some "c", none⟩ false))
    (by rfl) ⟨"Patient", "p1", none, [("code.coding.code", "c")]⟩

/-- Unfolding chunkList on a non-empty list. -/
theorem chunkList_cons (n : Nat) (x : α) (xs : List α) :
    chunkList n (x :: xs) =
      (x :: xs.take (n - 1)) :: chunkList n (xs.drop (n - 1)) := by
  rw [chunkList]

/-- chunkList flattens back to the original list. -/
theorem chunkList_flatten (n : Nat) (l : List α) :
    (chunkList n l).flatten = l := by
  have H : ∀ (k : Nat) (l : List α), l.length ≤ k → (chunkList n l).flatten = l := by
    intro k
    induction k with
    | zero =>
        intro l hl
        have hnil : l = [] := List.eq_nil_of_length_eq_zero (Nat.le_zero.mp hl)
        subst hnil
        rw [chunkList]
        rfl
    | succ k ih =>
        intro l hl
        cases l with
        | nil =>
            rw [chunkList]
            rfl
        | cons x xs =>
            rw [chunkList_cons, List.flatten_cons,
              ih (xs.drop (n - 1)) (by simp at hl ⊢; omega), List.cons_append,
              List.take_append_drop]
  exact H l.length l (Nat.le_refl _)

/-- Every chunk has at most n elements (for positive n). -/
theorem chunkList_length_le (n : Nat) (hn : 0 < n) (l : List α) :
    ∀ c ∈ chunkList n l, c.length ≤ n := by
  have H : ∀ (k : Nat) (l : List α), l.length ≤ k →
      ∀ c ∈ chunkList n l, c.length ≤ n := by
    intro k
    induction k with
    | zero =>
        intro l hl
        have hnil : l = [] := List.eq_nil_of_length_eq_zero (Nat.le_zero.mp hl)
        subst hnil
        rw [chunkList]
        intro c hc
        cases hc
    | succ k ih =>
        intro l hl
        cases l with
        | nil =>
            rw [chunkList]
            intro c hc
            cases hc
        | cons x xs =>
            rw [chunkList_cons]
            intro c hc
            rcases List.mem_cons.mp hc with rfl | hc'
            · simp [List.length_take]
              omega
            · exact ih (xs.drop (n - 1)) (by simp at hl ⊢; omega) c hc'
  exact H l.length l (Nat.le_refl _)

/-- A short non-empty list is a single chunk. -/
theorem chunkList_of_length_le (n : Nat) (l : List α) (hpos : l ≠ [])
    (hle : l.length ≤ n) : chunkList n l = [l] := by
  cases l with
  | nil => exact absurd rfl hpos
  | cons x xs =>
      rw [chunkList_cons, List.take_of_length_le (by simp at hle; omega),
        List.drop_eq_nil_of_le (by simp at hle; omega), chunkList]

/-- A full-length first run splits off as one chunk. -/
theorem chunkList_append (n : Nat) (hn : 0 < n) (l1 l2 : List α)
    (h : l1.length = n) : chunkList n (l1 ++ l2) = l1 :: chunkList n l2 := by
  cases l1 with
  | nil => simp at h; omega
  | cons x xs =>
      have hxs : xs.length = n - 1 := by simp at h; omega
      rw [List.cons_append, chunkList_cons, List.take_left' hxs,
        List.drop_left' hxs]

/-- Every chunk except possibly the last has exactly n elements. -/
theorem chunkList_dropLast_length (n : Nat) (hn : 0 < n) (l : List α) :
    ∀ c ∈ (chunkList n l).dropLast, c.length = n := by
  have H : ∀ (k : Nat) (l : List α), l.length ≤ k →
      ∀ c ∈ (chunkList n l).dropLast, c.length = n := by
    intro k
    induction k with
    | zero =>
        intro l hl
        have hnil : l = [] := List.eq_nil_of_length_eq_zero (Nat.le_zero.mp hl)
        subst hnil
        rw [chunkList]
        intro c hc
        cases hc
    | succ k ih =>
        intro l hl
        cases l with
        | nil =>
            rw [chunkList]
            intro c hc
            cases hc
        | cons x xs =>
            rw [chunkList_cons]
            by_cases hrest : chunkList n (xs.drop (n - 1)) = []
            · rw [hrest]
              intro c hc
              cases hc
            · rw [List.dropLast_cons_of_ne_nil hrest]
              intro c hc
              rcases List.mem_cons.mp hc with rfl | hc'
              · have hdrop : xs.drop (n - 1) ≠ [] := by
                  intro hd
                  rw [hd, chunkList] at hrest
                  exact hrest rfl
                have hlen : n - 1 ≤ xs.length := by
                  by_contra hcon
                  exact hdrop (List.drop_eq_nil_of_le (by omega))
                simp [List.length_take]
                omega
              · exact ih (xs.drop (n - 1)) (by simp at hl ⊢; omega) c hc'
  exact H l.length l (Nat.le_refl _)

/-- C9: the dispatch step partitions the notification sequence into
consecutive batches of at most SNS_MAX_BATCH_SIZE (= 10) notifications each,
every batch except possibly the last having exactly 10; re-joining the
batches restores the sequence, and each batch becomes exactly one publish
call — 23 notifications yield batch sizes [10, 10, 3] and three publish
calls. -/
theorem dispatch_batches_spec (notifications : List SubscriptionNotification) :
    (dispatchBatches notifications).flatten = notifications ∧
    (∀ batch ∈ dispatchBatches notifications,
      batch.length ≤ SNS_MAX_BATCH_SIZE) ∧
    (∀ batch ∈ (dispatchBatches notifications).dropLast,
      batch.length = SNS_MAX_BATCH_SIZE) ∧
    (notifications.length = 23 →
      (dispatchBatches notifications).map List.length = [10, 10, 3] ∧
      snsPublishCalls notifications = 3) := by
  refine ⟨chunkList_flatten _ _,
    chunkList_length_le SNS_MAX_BATCH_SIZE (by decide) _,
    chunkList_dropLast_length SNS_MAX_BATCH_SIZE (by decide) _,
    fun h23 => ?_⟩
  have h10 : (notifications.take 10).length = 10 := by simp [h23]
  have hrest : (notifications.drop 10).length = 13 := by simp [h23]
  have h10b : ((notifications.drop 10).take 10).length = 10 := by simp [hrest]
  have hc : ((notifications.drop 10).drop 10).length = 3 := by simp [h23]
  have hcne : (notifications.drop 10).drop 10 ≠ [] := by
    intro hnil
    rw [hnil] at hc
    simp at hc
  have hsplit1 : notifications =
      notifications.take 10 ++ notifications.drop 10 :=
    (List.take_append_drop 10 notifications).symm
  have hsplit2 : notifications.drop 10 =
      (notifications.drop 10).take 10 ++ (notifications.drop 10).drop 10 :=
    (List.take_append_drop 10 (notifications.drop 10)).symm
  have hchunks : dispatchBatches notifications =
      [notifications.take 10, (notifications.drop 10).take 10,
       (notifications.drop 10).drop 10] := by
    rw [dispatchBatches]
    conv_lhs => rw [hsplit1]
    rw [chunkList_append SNS_MAX_BATCH_SIZE (by decide) _ _ h10]
    conv_lhs => rw [hsplit2]
    rw [chunkList_append SNS_MAX_BATCH_SIZE (by decide) _ _ h10b]
    rw [chunkList_of_length_le SNS_MAX_BATCH_SIZE _ hcne (by rw [hc]; decide)]
  constructor
  · rw [hchunks]
    simp only [List.map_cons, List.map_nil, h10, h10b, hc]
  · rw [snsPublishCalls, hchunks]
    rfl

/-- A concrete matched resource for the witnesses. -/
def resourceExample : Resource :=
  ⟨"Patient", "p1", some "t1", [("status", "active")]⟩

/-- A concrete notification for the dispatch witness. -/
def notificationExample : SubscriptionNotification :=
  ⟨"sub1", resourceExample, "rest-hook", "https://endpoint.example"⟩

/-- Witness for C9 at a concrete sequence of 23 notifications. -/
theorem dispatch_batches_spec_witness :
    (dispatchBatches (List.replicate 23 notificationExample)).map List.length =
      [10, 10, 3] ∧
    snsPublishCalls (List.replicate 23 notificationExample) = 3 :=
  (dispatch_batches_spec (List.replicate 23 notificationExample)).2.2.2
    (by simp)

/-- Every produced pair's subscription comes from the active snapshot. -/
theorem fst_mem_of_mem_matchingPairs (subs : List Subscription)
    (res : List Resource) (p : Subscription × Resource)
    (hp : p ∈ matchingPairs subs res) : p.1 ∈ subs := by
  simp only [matchingPairs, List.mem_flatMap] at hp
  rcases hp with ⟨s, hs, hp⟩
  simp only [List.mem_map] at hp
  rcases hp with ⟨r, hr, rfl⟩
  exact hs

/-- Counting a pair in the pairing of one subscription with a resource list
counts the resource. -/
theorem count_map_pair (s : Subscription) (l : List Resource) (r : Resource) :
    (l.map (fun x => (s, x))).count (s, r) = l.count r := by
  induction l with
  | nil => rfl
  | cons a l ih =>
      simp [List.count_cons, ih]

/-- Each satisfying (subscription, resource) pair occurs exactly once among
the produced pairs (and a non-satisfying one not at all). -/
theorem count_matchingPairs (res : List Resource) (s : Subscription)
    (r : Resource) (hndr : res.Nodup) (hr : r ∈ res) :
    ∀ subs : List Subscription, subs.Nodup → s ∈ subs →
      (matchingPairs subs res).count (s, r) =
        if matchSubscription s r then 1 else 0 := by
  intro subs
  induction subs with
  | nil =>
      intro _ hs
      cases hs
  | cons s' subs ih =>
      intro hnd hs
      have hsplit : matchingPairs (s' :: subs) res =
          ((res.filter (matchSubscription s')).map (fun x => (s', x))) ++
            matchingPairs subs res := by
        simp [matchingPairs]
      rw [hsplit, List.count_append]
      rcases List.mem_cons.mp hs with rfl | hs'
      · have hnotin : s ∉ subs := (List.nodup_cons.mp hnd).1
        have h2 : (matchingPairs subs res).count (s, r) = 0 := by
          apply List.count_eq_zero.mpr
          intro hmem
          exact hnotin (fst_mem_of_mem_matchingPairs subs res (s, r) hmem)
        have h1 : ((res.filter (matchSubscription s)).map
            (fun x => (s, x))).count (s, r) =
              (res.filter (matchSubscription s)).count r :=
          count_map_pair s (res.filter (matchSubscription s)) r
        rw [h1, h2, Nat.add_zero]
        by_cases hm : matchSubscription s r = true
        · rw [if_pos hm, List.count_filter (by simpa using hm),
            List.count_eq_one_of_mem hndr hr]
        · have hnm : r ∉ res.filter (matchSubscription s) := by
            intro hmem
            exact hm (List.mem_filter.mp hmem).2
          rw [if_neg hm, List.count_eq_zero.mpr hnm]
      · have hne : s' ≠ s := by
          intro he
          exact (List.nodup_cons.mp hnd).1 (he ▸ hs')
        have h1 : ((res.filter (matchSubscription s')).map
            (fun x => (s', x))).count (s, r) = 0 := by
          apply List.count_eq_zero.mpr
          intro hmem
          simp only [List.mem_map] at hmem
          rcases hmem with ⟨x, hx, hpair⟩
          exact hne (congrArg Prod.fst hpair)
        rw [h1, ih (List.nodup_cons.mp hnd).2 hs', Nat.zero_add]

/-- C4: in a match cycle a notification is produced for a (subscription,
resource) pair exactly when the subscription's tenant equals the resource's
tenant and the compiled criteria evaluate to true on the resource; a tenant
mismatch never matches, and each satisfying pair yields exactly one
notification. -/
theorem matchCycle_notifications (activeSubscriptions : List Subscription)
    (eligibleResources : List Resource) (s : Subscription) (r : Resource)
    (hs : s ∈ activeSubscriptions) (hr : r ∈ eligibleResources)
    (hnds : activeSubscriptions.Nodup) (hndr : eligibleResources.Nodup) :
    matchSubscription s r =
      (s.tenantId == r.tenantId &&
        matchParsedFhirQueryParams s.parsedCriteria r) ∧
    (s.tenantId ≠ r.tenantId → matchSubscription s r = false) ∧
    subscriptionNotifications activeSubscriptions eligibleResources =
      (matchingPairs activeSubscriptions eligibleResources).map
        (fun p => buildNotification p.1 p.2) ∧
    (matchingPairs activeSubscriptions eligibleResources).count (s, r) =
      (if matchSubscription s r then 1 else 0) := by
  refine ⟨rfl, ?_, ?_,
    count_matchingPairs eligibleResources s r hndr hr
      activeSubscriptions hnds hs⟩
  · intro hne
    simp [matchSubscription, beq_eq_false_iff_ne.mpr hne]
  · simp only [subscriptionNotifications, matchingPairs, List.map_flatMap,
      List.map_map]
    rfl

/-- A concrete subscription for the match-cycle witness. -/
def subscriptionExample : Subscription :=
  ⟨"sub1", some "t1", Query.single (Clause.boolMustTerm "status" "active"),
   "rest-hook", "https://endpoint.example"⟩

/-- Witness for C4 at a concrete one-subscription, one-resource cycle. -/
theorem matchCycle_notifications_witness :
    matchSubscription subscriptionExample resourceExample =
      (subscriptionExample.tenantId == resourceExample.tenantId &&
        matchParsedFhirQueryParams subscriptionExample.parsedCriteria
          resourceExample) ∧
    (subscriptionExample.tenantId ≠ resourceExample.tenantId →
      matchSubscription subscriptionExample resourceExample = false) ∧
    subscriptionNotifications [subscriptionExample] [resourceExample] =
      (matchingPairs [subscriptionExample] [resourceExample]).map
        (fun p => buildNotification p.1 p.2) ∧
    (matchingPairs [subscriptionExample] [resourceExample]).count
        (subscriptionExample, resourceExample) =
      (if matchSubscription subscriptionExample resourceExample
        then 1 else 0) :=
  matchCycle_notifications [subscriptionExample] [resourceExample]
    subscriptionExample resourceExample (by simp) (by simp) (by simp) (by simp)
